import Mathlib

/-!
# GtkHash: the controller glue of `src/hash.c`

A shallow embedding of the callbacks of `hash.c` that drive the queue of
pending URIs (`hash_priv.uris`) and of the progress callback that selects the
ETA text.

* C pointers of type `char *` are `Option String`: `none` is `NULL`.
* `hash_priv.uris`, a `GSList` of `char *`, is a `List (Option String)`;
  the empty list is the `NULL` list.
* Calls into other modules (`gui.c`, `list.c`, `hash/hash-file.c`, GLib) are
  recorded, in call order, in the field `trace` of the state.
* `g_assert` is taken as enabled (GLib's default): a failed assertion ends the
  program, which is the outcome `aborted`.
-/

namespace GtkHash

/-- Views of the window, `enum gui_view_e` of `gui.h`. Only the two
enumerators below are named by `hash.c`; every other value of the enumeration
is `GUI_VIEW_OTHER` and takes the `default:` branch of each `switch`. -/
inductive gui_view_e where
  | GUI_VIEW_FILE
  | GUI_VIEW_FILE_LIST
  | GUI_VIEW_OTHER
  deriving DecidableEq

/-- States of the window, `enum gui_state_e` of `gui.h`. `hash.c` names only
`GUI_STATE_IDLE`; `GUI_STATE_BUSY` stands for the state that is not idle. -/
inductive gui_state_e where
  | GUI_STATE_IDLE
  | GUI_STATE_BUSY
  deriving DecidableEq

/-- Modelled from the spec: `enum digest_format_e` is declared in the hash
backend, which is not part of `hash.c`; the spec lists the output formats
hex-lower, hex-upper and Base64. -/
inductive digest_format_e where
  | DIGEST_FORMAT_HEX_LOWER
  | DIGEST_FORMAT_HEX_UPPER
  | DIGEST_FORMAT_BASE64
  deriving DecidableEq

/-- What one call `gui_get_hmac_key(&key_size)` yields: the returned pointer
to the key bytes (`none` for `NULL`) and the value left in `key_size`. -/
structure hmac_key_s where
  hmac_key : Option (List Nat)
  key_size : Nat
  deriving DecidableEq

/-- Calls that leave `hash.c`, with their arguments. -/
inductive call_e where
  /-- The call `gtkhash_hash_file(hash_priv.hfile, uri, format, hmac_key, key_size, cb_data)`. -/
  | hash_file (uri : Option String) (format : digest_format_e)
      (hmac_key : Option (List Nat)) (key_size : Nat) (cb_data : Option String)
  /-- The call `gtkhash_hash_file_cancel(hash_priv.hfile)`. -/
  | hash_file_cancel
  /-- The call `gui_set_state(state)`. -/
  | gui_set_state (state : gui_state_e)
  /-- The call `gui_check_digests()`. -/
  | gui_check_digests
  /-- The call `g_free(p)`. -/
  | g_free (p : Option String)
  /-- The call `g_slist_free_full(list, g_free)`. -/
  | g_slist_free_full (list : List (Option String))
  /-- The call `list_set_digest(uri, id, digest)`. -/
  | list_set_digest (uri : Option String) (id : Nat) (digest : String)
  /-- The call `gtk_entry_set_text(gui.hash_widgets[id].entry_file, digest)`. -/
  | entry_file_set_text (id : Nat) (digest : String)
  deriving DecidableEq

/-- The globals that `hash.c` reads and writes.

* `view` is `gui.view`;
* `uris` is `hash_priv.uris`;
* `format` is what `gui_get_digest_format()` returns when called now;
* `hmac` is what `gui_get_hmac_key(&key_size)` yields when called now;
* `gui_state` is the argument of the latest `gui_set_state` call;
* `trace` lists the calls made so far, oldest first. -/
structure State where
  view : gui_view_e
  uris : List (Option String)
  format : digest_format_e
  hmac : hmac_key_s
  gui_state : gui_state_e
  trace : List call_e
  deriving DecidableEq

/-- Why a run of the program ended inside a callback. -/
inductive abort_e where
  /-- The assertion `g_assert(!hash_priv.uris)` of `hash_file_list_start`. -/
  | assert_no_uris
  /-- The assertion `g_assert(hash_priv.uris)`. -/
  | assert_uris
  /-- The assertion `g_assert(hash_priv.uris->data)`. -/
  | assert_uris_data
  /-- The `default:` branch, `g_assert_not_reached()`. -/
  | assert_not_reached
  /-- The dereference `hash_priv.uris->data` of a `NULL` list. -/
  | null_dereference
  deriving DecidableEq

/-- Result of running a `void` function of `hash.c`: it returns to its caller
in a new state, or the program is ended at a failed assertion; `aborted`
carries the state reached when the program ended. -/
inductive Outcome where
  | returned (st : State)
  | aborted (st : State) (why : abort_e)
  deriving DecidableEq

/-- Sequencing: what follows runs only when the first part returned. -/
def Outcome.bind (o : Outcome) (f : State → Outcome) : Outcome :=
  match o with
  | Outcome.returned st => f st
  | Outcome.aborted st why => Outcome.aborted st why

/-- Record one outgoing call at the end of the trace. -/
def State.call (st : State) (c : call_e) : State :=
  { st with trace := st.trace ++ [c] }

/-- Modelled from the spec: `gui_set_state` is defined in `gui.c`, which is
not part of `hash.c`. The spec's driver is idle once the batch has ended, so
the call is recorded and the state of the window becomes its argument. -/
def gui_set_state (state : gui_state_e) (st : State) : State :=
  { st with gui_state := state, trace := st.trace ++ [call_e.gui_set_state state] }

/-- The function `hash_file_start(uri)`: lines 163-176. -/
def hash_file_start (uri : Option String) (st : State) : State :=
  let format := st.format
  let key_size := st.hmac.key_size
  let hmac_key := st.hmac.hmac_key
  let cb_data : Option String :=
    if st.view = gui_view_e.GUI_VIEW_FILE then uri else none
  st.call (call_e.hash_file uri format hmac_key key_size cb_data)

/-- The function `gtkhash_hash_file_digest_cb(id, digest, data)`: lines 99-112. -/
def gtkhash_hash_file_digest_cb (id : Nat) (digest : String)
    (_data : Option String) (st : State) : Outcome :=
  match st.view with
  | gui_view_e.GUI_VIEW_FILE =>
      Outcome.returned (st.call (call_e.entry_file_set_text id digest))
  | gui_view_e.GUI_VIEW_FILE_LIST =>
      match st.uris with
      | [] => Outcome.aborted st abort_e.null_dereference
      | u :: _ => Outcome.returned (st.call (call_e.list_set_digest u id digest))
  | gui_view_e.GUI_VIEW_OTHER => Outcome.aborted st abort_e.assert_not_reached

/-- The function `gtkhash_hash_file_finish_cb(data)`: lines 114-142. -/
def gtkhash_hash_file_finish_cb (data : Option String) (st : State) : Outcome :=
  match st.view with
  | gui_view_e.GUI_VIEW_FILE =>
      let st1 := st.call (call_e.g_free data)
      Outcome.returned ((gui_set_state gui_state_e.GUI_STATE_IDLE st1).call
        call_e.gui_check_digests)
  | gui_view_e.GUI_VIEW_FILE_LIST =>
      match st.uris with
      | [] => Outcome.aborted st abort_e.assert_uris
      | none :: _ => Outcome.aborted st abort_e.assert_uris_data
      | some u :: rest =>
          let st1 := st.call (call_e.g_free (some u))
          let st2 := { st1 with uris := rest }
          match st2.uris with
          | next :: _ => Outcome.returned (hash_file_start next st2)
          | [] =>
              Outcome.returned ((gui_set_state gui_state_e.GUI_STATE_IDLE st2).call
                call_e.gui_check_digests)
  | gui_view_e.GUI_VIEW_OTHER => Outcome.aborted st abort_e.assert_not_reached

/-- The function `gtkhash_hash_file_stop_cb(data)`: lines 144-161. -/
def gtkhash_hash_file_stop_cb (data : Option String) (st : State) : Outcome :=
  match st.view with
  | gui_view_e.GUI_VIEW_FILE =>
      let st1 := st.call (call_e.g_free data)
      Outcome.returned (gui_set_state gui_state_e.GUI_STATE_IDLE st1)
  | gui_view_e.GUI_VIEW_FILE_LIST =>
      let st1 :=
        match st.uris with
        | [] => st
        | u :: rest =>
            { st.call (call_e.g_slist_free_full (u :: rest)) with uris := [] }
      Outcome.returned (gui_set_state gui_state_e.GUI_STATE_IDLE st1)
  | gui_view_e.GUI_VIEW_OTHER => Outcome.aborted st abort_e.assert_not_reached

/-- The function `hash_file_list_start()`: lines 178-186. The argument
`list_get_all_uris` is the list that the call `list_get_all_uris()` of
`list.c` returns. -/
def hash_file_list_start (list_get_all_uris : List (Option String))
    (st : State) : Outcome :=
  match st.uris with
  | _ :: _ => Outcome.aborted st abort_e.assert_no_uris
  | [] =>
      let st1 := { st with uris := list_get_all_uris }
      match st1.uris with
      | [] => Outcome.aborted st1 abort_e.assert_uris
      | u :: _ => Outcome.returned (hash_file_start u st1)

/-- The function `hash_file_stop()`: lines 188-191. -/
def hash_file_stop (st : State) : State :=
  st.call call_e.hash_file_cancel

/-- The URIs handed to `gtkhash_hash_file`, in call order. -/
def started_uris (t : List call_e) : List (Option String) :=
  t.filterMap fun c =>
    match c with
    | call_e.hash_file uri _ _ _ _ => some uri
    | _ => none

/-- The digest format and HMAC key handed to `gtkhash_hash_file`, in call
order. -/
def started_settings (t : List call_e) : List (digest_format_e × hmac_key_s) :=
  t.filterMap fun c =>
    match c with
    | call_e.hash_file _ format hmac_key key_size _ => some (format, ⟨hmac_key, key_size⟩)
    | _ => none

/-- The arguments of the `gui_set_state` calls, in call order. -/
def set_state_calls (t : List call_e) : List gui_state_e :=
  t.filterMap fun c =>
    match c with
    | call_e.gui_set_state s => some s
    | _ => none

/-- The state in which an outcome leaves the program. -/
def Outcome.state (o : Outcome) : State :=
  match o with
  | Outcome.returned st => st
  | Outcome.aborted st _ => st

/-- A run of finish events: the reader of `hash/hash-file.c` calls
`gtkhash_hash_file_finish_cb` once per completed file; `ds` lists the `data`
argument of each call. -/
def finishes (ds : List (Option String)) (st : State) : Outcome :=
  match ds with
  | [] => Outcome.returned st
  | d :: ds => (gtkhash_hash_file_finish_cb d st).bind (finishes ds)

/-- Callbacks that the reader of `hash/hash-file.c` may deliver. -/
inductive callback_e where
  | digest (id : Nat) (digest : String) (data : Option String)
  | finish (data : Option String)
  | stop (data : Option String)
  deriving DecidableEq

/-- Deliver one callback. -/
def deliver (cb : callback_e) (st : State) : Outcome :=
  match cb with
  | callback_e.digest id digest data => gtkhash_hash_file_digest_cb id digest data st
  | callback_e.finish data => gtkhash_hash_file_finish_cb data st
  | callback_e.stop data => gtkhash_hash_file_stop_cb data st

/-- Deliver callbacks one after the other, as long as the program runs. -/
def deliveries (cbs : List callback_e) (st : State) : Outcome :=
  match cbs with
  | [] => Outcome.returned st
  | cb :: cbs => (deliver cb st).bind (deliveries cbs)

/-- A division in `double` arithmetic evaluated by
`gtkhash_hash_file_report_cb`, with its operands before conversion to
`double`. The conversion of a `goffset` to `double` yields zero exactly when
the `goffset` is zero. -/
inductive fdiv_e where
  /-- Lines 59-60: `(double)total_read / (double)file_size`. -/
  | fraction (total_read file_size : Int)
  /-- Line 68: `elapsed / total_read`. -/
  | eta (elapsed : ℚ) (total_read : Int)
  /-- Line 71: `total_read / elapsed`. -/
  | speed (total_read : Int) (elapsed : ℚ)
  deriving DecidableEq

/-- Whether the divisor of the division is zero. -/
def fdiv_e.zero_divisor (d : fdiv_e) : Bool :=
  match d with
  | fdiv_e.fraction _ file_size => decide (file_size = 0)
  | fdiv_e.eta _ total_read => decide (total_read = 0)
  | fdiv_e.speed _ elapsed => decide (elapsed = 0)

/-- The text put on the progress bar: which of the four format strings of
lines 77-88 is used, with its `%u` argument. The three `%s` arguments
(`total_read_str`, `file_size_str`, `speed_str`) are the same in all four. -/
inductive eta_text_e where
  /-- The format `"%s of %s - 1 minute left (%s/sec)"`. -/
  | minute_left
  /-- The format `"%s of %s - %u minutes left (%s/sec)"` with `m`. -/
  | minutes_left (m : Nat)
  /-- The format `"%s of %s - 1 second left (%s/sec)"`. -/
  | second_left
  /-- The format `"%s of %s - %u seconds left (%s/sec)"` with `s`. -/
  | seconds_left (s : Nat)
  deriving DecidableEq

/-- Lines 74-89 of `gtkhash_hash_file_report_cb`: the choice of the text from
the `unsigned int` number of seconds `s`. -/
def progress_text (s : Nat) : eta_text_e :=
  if s > 60 then
    let m := s / 60
    if m = 1 then eta_text_e.minute_left
    else eta_text_e.minutes_left m
  else
    if s = 1 then eta_text_e.second_left
    else eta_text_e.seconds_left s

/-- What one call of `gtkhash_hash_file_report_cb` does: the operands of
`gtk_progress_bar_set_fraction`, the `double` divisions evaluated in order, and
the argument of `gtk_progress_bar_set_text` when that call is made. -/
structure report_s where
  fraction : Int × Int
  divisions : List fdiv_e
  text : Option eta_text_e
  deriving DecidableEq

/-- The function `gtkhash_hash_file_report_cb(data, file_size, total_read,
timer)`: lines 55-97. `elapsed` is the finite `double` that
`g_timer_elapsed(timer, NULL)` returns, as the rational number it denotes.
`eta_seconds elapsed total_read file_size` is the value of the `double`
expression `elapsed / total_read * (file_size - total_read)` of line 68 after
its conversion to `unsigned int`, kept within the 32 bits of that type. -/
def gtkhash_hash_file_report_cb (eta_seconds : ℚ → Int → Int → Nat)
    (file_size total_read : Int) (elapsed : ℚ) : report_s :=
  let d_fraction := fdiv_e.fraction total_read file_size
  if elapsed ≤ 1 then
    { fraction := (total_read, file_size), divisions := [d_fraction], text := none }
  else
    let d_eta := fdiv_e.eta elapsed total_read
    let s := eta_seconds elapsed total_read file_size % 2 ^ 32
    let d_speed := fdiv_e.speed total_read elapsed
    { fraction := (total_read, file_size),
      divisions := [d_fraction, d_eta, d_speed],
      text := some (progress_text s) }

/-- A window in file-list view just before a batch is started: the queue is
empty, the GUI has been set busy by the caller, the format is hex-lower, no
HMAC key is set, and no call has been recorded. -/
def list_view_ready : State :=
  { view := gui_view_e.GUI_VIEW_FILE_LIST, uris := [],
    format := digest_format_e.DIGEST_FORMAT_HEX_LOWER, hmac := ⟨none, 0⟩,
    gui_state := gui_state_e.GUI_STATE_BUSY, trace := [] }

/-- A window in file-list view in the middle of a batch: `a` is being hashed
and `b` is pending. -/
def list_view_busy : State :=
  { list_view_ready with uris := [some "a", some "b"] }

/-- A window in single-file view while the file `a` is being hashed; the queue
of the file list is empty. -/
def file_view_busy : State :=
  { list_view_ready with view := gui_view_e.GUI_VIEW_FILE }

/-- The `list_set_digest` calls of a trace, in call order: the URI each digest
is recorded against, the hash function and the digest. -/
def recorded_digests (t : List call_e) : List (Option String × Nat × String) :=
  t.filterMap fun c =>
    match c with
    | call_e.list_set_digest uri id digest => some (uri, id, digest)
    | _ => none

/-- The number of finish events among the callbacks. -/
def finish_count (cbs : List callback_e) : Nat :=
  match cbs with
  | [] => 0
  | callback_e.digest _ _ _ :: cbs => finish_count cbs
  | callback_e.finish _ :: cbs => finish_count cbs + 1
  | callback_e.stop _ :: cbs => finish_count cbs

/-- Whether the callbacks hold no stop event: the batch is not cancelled. -/
def uncancelled (cbs : List callback_e) : Bool :=
  match cbs with
  | [] => true
  | callback_e.digest _ _ _ :: cbs => uncancelled cbs
  | callback_e.finish _ :: cbs => uncancelled cbs
  | callback_e.stop _ :: _ => false

/-- What the attribution of digests to files demands of a batch on the list
`L`, stated without the queue: a digest event that comes after `k` finish
events belongs to the `k`-th URI of `L`. The callbacks are read from the point
where `k` files have finished. -/
def expected_digests (L : List String) (k : Nat) (cbs : List callback_e) :
    List (Option String × Nat × String) :=
  match cbs with
  | [] => []
  | callback_e.digest id digest _ :: cbs => (L[k]?, id, digest) :: expected_digests L k cbs
  | callback_e.finish _ :: cbs => expected_digests L (k + 1) cbs
  | callback_e.stop _ :: cbs => expected_digests L k cbs

/-! ## Helper lemmas -/

@[simp] theorem started_uris_append (a b : List call_e) :
    started_uris (a ++ b) = started_uris a ++ started_uris b := by
  simp [started_uris, List.filterMap_append]

@[simp] theorem started_settings_append (a b : List call_e) :
    started_settings (a ++ b) = started_settings a ++ started_settings b := by
  simp [started_settings, List.filterMap_append]

@[simp] theorem set_state_calls_append (a b : List call_e) :
    set_state_calls (a ++ b) = set_state_calls a ++ set_state_calls b := by
  simp [set_state_calls, List.filterMap_append]

theorem finish_cb_next (st : State) (data : Option String) (u : String)
    (next : Option String) (rest : List (Option String))
    (hview : st.view = gui_view_e.GUI_VIEW_FILE_LIST)
    (huris : st.uris = some u :: next :: rest) :
    gtkhash_hash_file_finish_cb data st =
      Outcome.returned
        { st with
          uris := next :: rest,
          trace := st.trace ++ [call_e.g_free (some u),
            call_e.hash_file next st.format st.hmac.hmac_key st.hmac.key_size none] } := by
  simp [gtkhash_hash_file_finish_cb, hview, huris, hash_file_start, State.call]

theorem finish_cb_last (st : State) (data : Option String) (u : String)
    (hview : st.view = gui_view_e.GUI_VIEW_FILE_LIST)
    (huris : st.uris = [some u]) :
    gtkhash_hash_file_finish_cb data st =
      Outcome.returned
        { st with
          uris := [],
          gui_state := gui_state_e.GUI_STATE_IDLE,
          trace := st.trace ++ [call_e.g_free (some u),
            call_e.gui_set_state gui_state_e.GUI_STATE_IDLE,
            call_e.gui_check_digests] } := by
  simp [gtkhash_hash_file_finish_cb, hview, huris, gui_set_state, State.call]

/-! ## The claims -/

/-- C1: in file-list view, a finish event on a queue `u :: rest` returns with
the queue equal to `rest`. When `rest` is non-empty the only calls made are
the release of `u` and the start of the reader on the head of `rest`, and the
GUI state is not set. When `rest` is empty no file is started and the GUI
state is set to `GUI_STATE_IDLE`. -/
theorem finish_cb_pops_head (st : State) (data : Option String) (u : String)
    (rest : List (Option String))
    (hview : st.view = gui_view_e.GUI_VIEW_FILE_LIST)
    (huris : st.uris = some u :: rest) :
    ∃ st', gtkhash_hash_file_finish_cb data st = Outcome.returned st' ∧
      st'.uris = rest ∧
      (∀ next tl, rest = next :: tl →
        st'.trace = st.trace ++ [call_e.g_free (some u),
          call_e.hash_file next st.format st.hmac.hmac_key st.hmac.key_size none] ∧
        started_uris st'.trace = started_uris st.trace ++ [next] ∧
        set_state_calls st'.trace = set_state_calls st.trace ∧
        st'.gui_state = st.gui_state) ∧
      (rest = [] →
        st'.trace = st.trace ++ [call_e.g_free (some u),
          call_e.gui_set_state gui_state_e.GUI_STATE_IDLE, call_e.gui_check_digests] ∧
        started_uris st'.trace = started_uris st.trace ∧
        set_state_calls st'.trace =
          set_state_calls st.trace ++ [gui_state_e.GUI_STATE_IDLE] ∧
        st'.gui_state = gui_state_e.GUI_STATE_IDLE) := by
  cases rest with
  | nil =>
      refine ⟨_, finish_cb_last st data u hview huris, rfl, ?_, ?_⟩
      · intro next tl h
        cases h
      · intro _
        simp [started_uris, set_state_calls]
  | cons next tl =>
      refine ⟨_, finish_cb_next st data u next tl hview huris, rfl, ?_, ?_⟩
      · intro next' tl' h
        cases h
        simp [started_uris, set_state_calls]
      · intro h
        cases h

/-- Witness of C1 on the queue `a, b`: the file `b` is started next. -/
theorem finish_cb_pops_head_witness :
    ∃ st', gtkhash_hash_file_finish_cb none list_view_busy = Outcome.returned st' ∧
      st'.uris = [some "b"] ∧
      (∀ next tl, [some "b"] = next :: tl →
        st'.trace = list_view_busy.trace ++ [call_e.g_free (some "a"),
          call_e.hash_file next list_view_busy.format list_view_busy.hmac.hmac_key
            list_view_busy.hmac.key_size none] ∧
        started_uris st'.trace = started_uris list_view_busy.trace ++ [next] ∧
        set_state_calls st'.trace = set_state_calls list_view_busy.trace ∧
        st'.gui_state = list_view_busy.gui_state) ∧
      ([some "b"] = [] →
        st'.trace = list_view_busy.trace ++ [call_e.g_free (some "a"),
          call_e.gui_set_state gui_state_e.GUI_STATE_IDLE, call_e.gui_check_digests] ∧
        started_uris st'.trace = started_uris list_view_busy.trace ∧
        set_state_calls st'.trace =
          set_state_calls list_view_busy.trace ++ [gui_state_e.GUI_STATE_IDLE] ∧
        st'.gui_state = gui_state_e.GUI_STATE_IDLE) :=
  finish_cb_pops_head list_view_busy none "a" [some "b"] rfl rfl

theorem deliver_empty_queue (cb : callback_e) (st : State)
    (hview : st.view = gui_view_e.GUI_VIEW_FILE_LIST) (huris : st.uris = []) :
    (deliver cb st).state.view = gui_view_e.GUI_VIEW_FILE_LIST ∧
    (deliver cb st).state.uris = [] ∧
    started_uris (deliver cb st).state.trace = started_uris st.trace := by
  cases cb <;>
    simp [deliver, gtkhash_hash_file_digest_cb, gtkhash_hash_file_finish_cb,
      gtkhash_hash_file_stop_cb, hview, huris, Outcome.state, gui_set_state,
      started_uris]

theorem deliveries_empty_queue (cbs : List callback_e) :
    ∀ st : State, st.view = gui_view_e.GUI_VIEW_FILE_LIST → st.uris = [] →
      started_uris (deliveries cbs st).state.trace = started_uris st.trace := by
  induction cbs with
  | nil =>
      intro st _ _
      rfl
  | cons cb cbs ih =>
      intro st hview huris
      obtain ⟨h1, h2, h3⟩ := deliver_empty_queue cb st hview huris
      unfold deliveries
      cases hd : deliver cb st with
      | returned st1 =>
          rw [hd] at h1 h2 h3
          simp only [Outcome.bind]
          rw [ih st1 h1 h2]
          exact h3
      | aborted st1 why =>
          rw [hd] at h3
          simpa [Outcome.bind] using h3

/-- C3: in file-list view, for every queue, the stop callback returns with
the queue empty, starts no file, and sets the GUI state to `GUI_STATE_IDLE`;
whatever callbacks are delivered afterwards, no further file is started. -/
theorem stop_cb_clears_queue (st : State) (data : Option String)
    (cbs : List callback_e)
    (hview : st.view = gui_view_e.GUI_VIEW_FILE_LIST) :
    ∃ st', gtkhash_hash_file_stop_cb data st = Outcome.returned st' ∧
      st'.uris = [] ∧
      started_uris st'.trace = started_uris st.trace ∧
      set_state_calls st'.trace =
        set_state_calls st.trace ++ [gui_state_e.GUI_STATE_IDLE] ∧
      st'.gui_state = gui_state_e.GUI_STATE_IDLE ∧
      started_uris (deliveries cbs st').state.trace = started_uris st.trace := by
  have key : ∃ st', gtkhash_hash_file_stop_cb data st = Outcome.returned st' ∧
      st'.view = gui_view_e.GUI_VIEW_FILE_LIST ∧
      st'.uris = [] ∧
      started_uris st'.trace = started_uris st.trace ∧
      set_state_calls st'.trace =
        set_state_calls st.trace ++ [gui_state_e.GUI_STATE_IDLE] ∧
      st'.gui_state = gui_state_e.GUI_STATE_IDLE := by
    cases hq : st.uris with
    | nil =>
        refine ⟨_, by simp only [gtkhash_hash_file_stop_cb, hview, hq]; rfl, ?_⟩
        simp [gui_set_state, hview, hq, started_uris, set_state_calls]
    | cons u rest =>
        refine ⟨_, by simp only [gtkhash_hash_file_stop_cb, hview, hq]; rfl, ?_⟩
        simp [gui_set_state, State.call, hview, started_uris, set_state_calls]
  obtain ⟨st', h0, h1, h2, h3, h4, h5⟩ := key
  refine ⟨st', h0, h2, h3, h4, h5, ?_⟩
  rw [deliveries_empty_queue cbs st' h1 h2]
  exact h3

/-- Witness of C3: a cancel in the middle of the batch `a, b`, followed by a
stray finish event. -/
theorem stop_cb_clears_queue_witness :
    ∃ st', gtkhash_hash_file_stop_cb none list_view_busy = Outcome.returned st' ∧
      st'.uris = [] ∧
      started_uris st'.trace = started_uris list_view_busy.trace ∧
      set_state_calls st'.trace =
        set_state_calls list_view_busy.trace ++ [gui_state_e.GUI_STATE_IDLE] ∧
      st'.gui_state = gui_state_e.GUI_STATE_IDLE ∧
      started_uris (deliveries [callback_e.finish none] st').state.trace =
        started_uris list_view_busy.trace :=
  stop_cb_clears_queue list_view_busy none [callback_e.finish none] rfl

/-- C8: in single-file view the finish and stop callbacks return with the
queue unchanged, start no file and set the GUI state to `GUI_STATE_IDLE`;
`hash_file_start` passes the URI as callback data in single-file view and
`NULL` in file-list view. -/
theorem single_file_view_leaves_queue (st : State) (data uri : Option String)
    (hview : st.view = gui_view_e.GUI_VIEW_FILE) :
    (∃ st', gtkhash_hash_file_finish_cb data st = Outcome.returned st' ∧
      st'.uris = st.uris ∧
      st'.trace = st.trace ++ [call_e.g_free data,
        call_e.gui_set_state gui_state_e.GUI_STATE_IDLE, call_e.gui_check_digests] ∧
      started_uris st'.trace = started_uris st.trace ∧
      st'.gui_state = gui_state_e.GUI_STATE_IDLE) ∧
    (∃ st', gtkhash_hash_file_stop_cb data st = Outcome.returned st' ∧
      st'.uris = st.uris ∧
      st'.trace = st.trace ++ [call_e.g_free data,
        call_e.gui_set_state gui_state_e.GUI_STATE_IDLE] ∧
      started_uris st'.trace = started_uris st.trace ∧
      st'.gui_state = gui_state_e.GUI_STATE_IDLE) ∧
    (hash_file_start uri st).trace = st.trace ++
      [call_e.hash_file uri st.format st.hmac.hmac_key st.hmac.key_size uri] ∧
    (hash_file_start uri st).uris = st.uris ∧
    (∀ st2 : State, st2.view = gui_view_e.GUI_VIEW_FILE_LIST →
      (hash_file_start uri st2).trace = st2.trace ++
        [call_e.hash_file uri st2.format st2.hmac.hmac_key st2.hmac.key_size none] ∧
      (hash_file_start uri st2).uris = st2.uris) := by
  refine ⟨⟨_, by simp only [gtkhash_hash_file_finish_cb, hview]; rfl, ?_⟩,
    ⟨_, by simp only [gtkhash_hash_file_stop_cb, hview]; rfl, ?_⟩, ?_, ?_, ?_⟩
  · simp [gui_set_state, State.call, started_uris]
  · simp [gui_set_state, State.call, started_uris]
  · simp [hash_file_start, State.call, hview]
  · simp [hash_file_start, State.call]
  · intro st2 h2
    simp [hash_file_start, State.call, h2]

/-- Witness of C8 in single-file view, with the URI `a` as callback data. -/
theorem single_file_view_leaves_queue_witness :
    (∃ st', gtkhash_hash_file_finish_cb (some "a") file_view_busy = Outcome.returned st' ∧
      st'.uris = file_view_busy.uris ∧
      st'.trace = file_view_busy.trace ++ [call_e.g_free (some "a"),
        call_e.gui_set_state gui_state_e.GUI_STATE_IDLE, call_e.gui_check_digests] ∧
      started_uris st'.trace = started_uris file_view_busy.trace ∧
      st'.gui_state = gui_state_e.GUI_STATE_IDLE) ∧
    (∃ st', gtkhash_hash_file_stop_cb (some "a") file_view_busy = Outcome.returned st' ∧
      st'.uris = file_view_busy.uris ∧
      st'.trace = file_view_busy.trace ++ [call_e.g_free (some "a"),
        call_e.gui_set_state gui_state_e.GUI_STATE_IDLE] ∧
      started_uris st'.trace = started_uris file_view_busy.trace ∧
      st'.gui_state = gui_state_e.GUI_STATE_IDLE) ∧
    (hash_file_start (some "a") file_view_busy).trace = file_view_busy.trace ++
      [call_e.hash_file (some "a") file_view_busy.format file_view_busy.hmac.hmac_key
        file_view_busy.hmac.key_size (some "a")] ∧
    (hash_file_start (some "a") file_view_busy).uris = file_view_busy.uris ∧
    (∀ st2 : State, st2.view = gui_view_e.GUI_VIEW_FILE_LIST →
      (hash_file_start (some "a") st2).trace = st2.trace ++
        [call_e.hash_file (some "a") st2.format st2.hmac.hmac_key st2.hmac.key_size none] ∧
      (hash_file_start (some "a") st2).uris = st2.uris) :=
  single_file_view_leaves_queue file_view_busy (some "a") (some "a") rfl

/-- C4, as stated, fails: with the batch `a, b` running, a second
`hash_file_list_start` does not return to its caller with the first batch
intact; the program is ended at `g_assert(!hash_priv.uris)`. -/
theorem list_start_while_running_does_not_return :
    ¬ ∃ st', hash_file_list_start [some "c"] list_view_busy = Outcome.returned st' ∧
        st'.uris = list_view_busy.uris ∧ st'.trace = list_view_busy.trace := by
  rintro ⟨st', h, _⟩
  simp [hash_file_list_start, list_view_busy] at h

/-- C4, amended: `hash_file_list_start` called while the queue is non-empty
fails the assertion `g_assert(!hash_priv.uris)`, which ends the program; up to
that point the queue is unchanged, `list_get_all_uris()` has not replaced it,
and no reader has been started. -/
theorem list_start_while_running_aborts (st : State)
    (uris : List (Option String)) (hbusy : st.uris ≠ []) :
    hash_file_list_start uris st = Outcome.aborted st abort_e.assert_no_uris ∧
    (hash_file_list_start uris st).state.uris = st.uris ∧
    (hash_file_list_start uris st).state.trace = st.trace := by
  cases hq : st.uris with
  | nil => exact absurd hq hbusy
  | cons u rest => simp [hash_file_list_start, hq, Outcome.state]

/-- Witness of the amended C4 on the running batch `a, b`. -/
theorem list_start_while_running_aborts_witness :
    hash_file_list_start [some "c"] list_view_busy =
      Outcome.aborted list_view_busy abort_e.assert_no_uris ∧
    (hash_file_list_start [some "c"] list_view_busy).state.uris = list_view_busy.uris ∧
    (hash_file_list_start [some "c"] list_view_busy).state.trace = list_view_busy.trace :=
  list_start_while_running_aborts list_view_busy [some "c"] (by simp [list_view_busy])

/-- C6, as stated, fails: for a zero-byte file (`file_size = 0`,
`total_read = 0`) the division `total_read / file_size` is evaluated with a
zero divisor even when the timer shows no elapsed time, and after two seconds
the division `elapsed / total_read` is evaluated with a zero divisor too. -/
theorem report_cb_divides_by_zero_size :
    (gtkhash_hash_file_report_cb (fun _ _ _ => 0) 0 0 0).divisions =
      [fdiv_e.fraction 0 0] ∧
    (fdiv_e.fraction 0 0).zero_divisor = true ∧
    (gtkhash_hash_file_report_cb (fun _ _ _ => 0) 0 0 2).divisions =
      [fdiv_e.fraction 0 0, fdiv_e.eta 2 0, fdiv_e.speed 0 2] ∧
    (fdiv_e.eta 2 0).zero_divisor = true := by
  refine ⟨by decide, by decide, by decide, by decide⟩

/-- C6, amended: `gtkhash_hash_file_report_cb` tests neither `file_size` nor
`total_read`. The division `total_read / file_size` is evaluated at every
call and the division `elapsed / total_read` at exactly the calls with
`elapsed > 1`, the early return at `elapsed <= 1` being the only guard. So a
division with a zero divisor is evaluated exactly when `file_size = 0`, or
`elapsed > 1` and `total_read = 0`. -/
theorem report_cb_divisions (eta_seconds : ℚ → Int → Int → Nat)
    (file_size total_read : Int) (elapsed : ℚ) :
    fdiv_e.fraction total_read file_size ∈
      (gtkhash_hash_file_report_cb eta_seconds file_size total_read elapsed).divisions ∧
    (fdiv_e.eta elapsed total_read ∈
      (gtkhash_hash_file_report_cb eta_seconds file_size total_read elapsed).divisions
        ↔ 1 < elapsed) ∧
    ((gtkhash_hash_file_report_cb eta_seconds file_size total_read elapsed).divisions.any
        fdiv_e.zero_divisor = true
      ↔ file_size = 0 ∨ (1 < elapsed ∧ total_read = 0)) := by
  unfold gtkhash_hash_file_report_cb
  by_cases h : elapsed ≤ 1
  · have h' : ¬ 1 < elapsed := not_lt.mpr h
    simp [h, h', fdiv_e.zero_divisor]
  · have h' : 1 < elapsed := not_le.mp h
    have h0 : elapsed ≠ 0 := by
      intro h0
      rw [h0] at h'
      exact absurd h' (by norm_num)
    simp [h, h', h0, fdiv_e.zero_divisor]

/-- C10: the progress text is set exactly when `elapsed > 1`, and is then the
text chosen from `s`. The minutes form is chosen exactly when `s > 60`, with
`m = s / 60`, which is at least 1; the singular minute exactly when
`61 <= s <= 119`. Otherwise the seconds form is chosen, with `s <= 60`; the
singular second exactly when `s = 1`; `s = 60` gives "60 seconds left". -/
theorem report_cb_eta_text (eta_seconds : ℚ → Int → Int → Nat)
    (file_size total_read : Int) (elapsed : ℚ) (s : Nat) :
    ((gtkhash_hash_file_report_cb eta_seconds file_size total_read elapsed).text.isSome
      ↔ 1 < elapsed) ∧
    (1 < elapsed →
      (gtkhash_hash_file_report_cb eta_seconds file_size total_read elapsed).text =
        some (progress_text (eta_seconds elapsed total_read file_size % 2 ^ 32))) ∧
    (60 < s → 1 ≤ s / 60 ∧
      progress_text s =
        if s / 60 = 1 then eta_text_e.minute_left else eta_text_e.minutes_left (s / 60)) ∧
    (s ≤ 60 →
      progress_text s =
        if s = 1 then eta_text_e.second_left else eta_text_e.seconds_left s) ∧
    (progress_text s = eta_text_e.minute_left ↔ 61 ≤ s ∧ s ≤ 119) ∧
    (∀ m, progress_text s = eta_text_e.minutes_left m ↔ 120 ≤ s ∧ m = s / 60) ∧
    (progress_text s = eta_text_e.second_left ↔ s = 1) ∧
    (∀ n, progress_text s = eta_text_e.seconds_left n ↔ s ≤ 60 ∧ s ≠ 1 ∧ n = s) ∧
    progress_text 60 = eta_text_e.seconds_left 60 := by
  refine ⟨?_, ?_, ?_, ?_, ?_, ?_, ?_, ?_, by decide⟩
  · unfold gtkhash_hash_file_report_cb
    by_cases h : elapsed ≤ 1
    · simp [h]
    · simp [h, not_le.mp h]
  · intro h
    unfold gtkhash_hash_file_report_cb
    simp [not_le.mpr h]
  · intro h
    refine ⟨by omega, ?_⟩
    simp [progress_text, h]
  · intro h
    simp [progress_text, Nat.not_lt.mpr h]
  · simp only [progress_text]
    split_ifs <;> simp <;> omega
  · intro m
    simp only [progress_text]
    split_ifs <;> simp <;> omega
  · simp only [progress_text]
    split_ifs <;> simp <;> omega
  · intro n
    simp only [progress_text]
    split_ifs <;> simp <;> omega

theorem finishes_upto (ds : List (Option String)) :
    ∀ (st : State) (u : String) (L : List String),
      st.view = gui_view_e.GUI_VIEW_FILE_LIST →
      st.uris = (u :: L).map some →
      ds.length ≤ L.length →
      ∃ st', finishes ds st = Outcome.returned st' ∧
        st'.view = gui_view_e.GUI_VIEW_FILE_LIST ∧
        st'.uris = ((u :: L).drop ds.length).map some ∧
        st'.gui_state = st.gui_state ∧
        started_uris st'.trace =
          started_uris st.trace ++ (L.take ds.length).map some ∧
        set_state_calls st'.trace = set_state_calls st.trace := by
  induction ds with
  | nil =>
      intro st u L hview huris _
      exact ⟨st, rfl, hview, by simpa using huris, rfl, by simp, rfl⟩
  | cons d ds ih =>
      intro st u L hview huris hlen
      cases L with
      | nil => simp at hlen
      | cons v L =>
          have hstep := finish_cb_next st d u (some v) (L.map some) hview
            (by simpa using huris)
          obtain ⟨st', h0, h1, h2, h3, h4, h5⟩ :=
            ih { st with
                 uris := some v :: L.map some,
                 trace := st.trace ++ [call_e.g_free (some u),
                   call_e.hash_file (some v) st.format st.hmac.hmac_key
                     st.hmac.key_size none] }
              v L hview (by simp) (by simpa using hlen)
          refine ⟨st', ?_, h1, ?_, h3, ?_, ?_⟩
          · simp only [finishes, hstep, Outcome.bind]
            exact h0
          · simpa using h2
          · rw [h4]
            simp [started_uris]
          · rw [h5]
            simp [set_state_calls]

theorem finishes_all (L : List String) :
    ∀ (ds : List (Option String)) (st : State) (u : String),
      st.view = gui_view_e.GUI_VIEW_FILE_LIST →
      st.uris = (u :: L).map some →
      ds.length = L.length + 1 →
      ∃ st', finishes ds st = Outcome.returned st' ∧
        st'.view = gui_view_e.GUI_VIEW_FILE_LIST ∧
        st'.uris = [] ∧
        st'.gui_state = gui_state_e.GUI_STATE_IDLE ∧
        started_uris st'.trace = started_uris st.trace ++ L.map some ∧
        set_state_calls st'.trace =
          set_state_calls st.trace ++ [gui_state_e.GUI_STATE_IDLE] := by
  induction L with
  | nil =>
      intro ds st u hview huris hlen
      match ds, hlen with
      | [d], _ =>
          have hstep := finish_cb_last st d u hview (by simpa using huris)
          refine ⟨{ st with
              uris := [],
              gui_state := gui_state_e.GUI_STATE_IDLE,
              trace := st.trace ++ [call_e.g_free (some u),
                call_e.gui_set_state gui_state_e.GUI_STATE_IDLE,
                call_e.gui_check_digests] }, ?_, hview, rfl, rfl, ?_, ?_⟩
          · simp only [finishes, hstep, Outcome.bind]
          · simp [started_uris]
          · simp [set_state_calls]
  | cons v L ih =>
      intro ds st u hview huris hlen
      cases ds with
      | nil => simp at hlen
      | cons d ds =>
          have hstep := finish_cb_next st d u (some v) (L.map some) hview
            (by simpa using huris)
          obtain ⟨st', h0, h1, h2, h3, h4, h5⟩ :=
            ih ds
              { st with
                uris := some v :: L.map some,
                trace := st.trace ++ [call_e.g_free (some u),
                  call_e.hash_file (some v) st.format st.hmac.hmac_key
                    st.hmac.key_size none] }
              v hview (by simp) (by simpa using hlen)
          refine ⟨st', ?_, h1, h2, h3, ?_, ?_⟩
          · simp only [finishes, hstep, Outcome.bind]
            exact h0
          · rw [h4]
            simp [started_uris]
          · rw [h5]
            simp [set_state_calls]

theorem list_start_returns (st : State) (u : String) (L : List String)
    (hview : st.view = gui_view_e.GUI_VIEW_FILE_LIST) (hq : st.uris = []) :
    hash_file_list_start ((u :: L).map some) st =
      Outcome.returned
        { st with
          uris := (u :: L).map some,
          trace := st.trace ++ [call_e.hash_file (some u) st.format st.hmac.hmac_key
            st.hmac.key_size none] } := by
  simp [hash_file_list_start, hq, hash_file_start, State.call, hview]

theorem batch_upto (st : State) (L : List String) (ds : List (Option String))
    (hview : st.view = gui_view_e.GUI_VIEW_FILE_LIST) (hq : st.uris = [])
    (hds : ds.length < L.length) :
    ∃ st', (hash_file_list_start (L.map some) st).bind (finishes ds) =
        Outcome.returned st' ∧
      st'.view = gui_view_e.GUI_VIEW_FILE_LIST ∧
      st'.uris = (L.drop ds.length).map some ∧
      st'.gui_state = st.gui_state ∧
      started_uris st'.trace =
        started_uris st.trace ++ (L.take (ds.length + 1)).map some ∧
      set_state_calls st'.trace = set_state_calls st.trace := by
  cases L with
  | nil => simp at hds
  | cons u L =>
      obtain ⟨st', h0, h1, h2, h3, h4, h5⟩ :=
        finishes_upto ds
          { st with
            uris := (u :: L).map some,
            trace := st.trace ++ [call_e.hash_file (some u) st.format st.hmac.hmac_key
              st.hmac.key_size none] }
          u L hview rfl (by simpa [Nat.lt_succ_iff] using hds)
      refine ⟨st', ?_, h1, h2, h3, ?_, ?_⟩
      · rw [list_start_returns st u L hview hq]
        exact h0
      · rw [h4]
        simp [started_uris]
      · rw [h5]
        simp [set_state_calls]

theorem batch_complete (st : State) (L : List String) (ds : List (Option String))
    (hview : st.view = gui_view_e.GUI_VIEW_FILE_LIST) (hq : st.uris = [])
    (hL : L ≠ []) (hds : ds.length = L.length) :
    ∃ st', (hash_file_list_start (L.map some) st).bind (finishes ds) =
        Outcome.returned st' ∧
      st'.view = gui_view_e.GUI_VIEW_FILE_LIST ∧
      st'.uris = [] ∧
      st'.gui_state = gui_state_e.GUI_STATE_IDLE ∧
      started_uris st'.trace = started_uris st.trace ++ L.map some ∧
      set_state_calls st'.trace =
        set_state_calls st.trace ++ [gui_state_e.GUI_STATE_IDLE] := by
  cases L with
  | nil => exact absurd rfl hL
  | cons u L =>
      obtain ⟨st', h0, h1, h2, h3, h4, h5⟩ :=
        finishes_all L ds
          { st with
            uris := (u :: L).map some,
            trace := st.trace ++ [call_e.hash_file (some u) st.format st.hmac.hmac_key
              st.hmac.key_size none] }
          u hview rfl (by simpa using hds)
      refine ⟨st', ?_, h1, h2, h3, ?_, ?_⟩
      · rw [list_start_returns st u L hview hq]
        exact h0
      · rw [h4]
        simp [started_uris]
      · rw [h5]
        simp [set_state_calls]

/-- C2: a batch started on the non-empty list `L` of URIs and followed by
one finish event per file returns, and the URIs handed to the reader are
exactly those of `L`, in the order of `L`, each once; after `k < N` finish
events the URIs handed over so far are the first `k + 1` of `L`. -/
theorem batch_starts_uris_in_order (st : State) (L : List String)
    (ds : List (Option String))
    (hview : st.view = gui_view_e.GUI_VIEW_FILE_LIST) (hq : st.uris = [])
    (hL : L ≠ []) (hds : ds.length = L.length) :
    (∃ st', (hash_file_list_start (L.map some) st).bind (finishes ds) =
        Outcome.returned st' ∧
      started_uris st'.trace = started_uris st.trace ++ L.map some) ∧
    (∀ ds' : List (Option String), ds'.length < L.length →
      ∃ st', (hash_file_list_start (L.map some) st).bind (finishes ds') =
          Outcome.returned st' ∧
        started_uris st'.trace =
          started_uris st.trace ++ (L.take (ds'.length + 1)).map some) := by
  constructor
  · obtain ⟨st', h0, _, _, _, h4, _⟩ := batch_complete st L ds hview hq hL hds
    exact ⟨st', h0, h4⟩
  · intro ds' hds'
    obtain ⟨st', h0, _, _, _, h4, _⟩ := batch_upto st L ds' hview hq hds'
    exact ⟨st', h0, h4⟩

/-- Witness of C2 on the list `a, b, c`. -/
theorem batch_starts_uris_in_order_witness :
    (∃ st', (hash_file_list_start (["a", "b", "c"].map some) list_view_ready).bind
          (finishes [none, none, none]) = Outcome.returned st' ∧
      started_uris st'.trace =
        started_uris list_view_ready.trace ++ ["a", "b", "c"].map some) ∧
    (∀ ds' : List (Option String), ds'.length < ["a", "b", "c"].length →
      ∃ st', (hash_file_list_start (["a", "b", "c"].map some) list_view_ready).bind
            (finishes ds') = Outcome.returned st' ∧
        started_uris st'.trace =
          started_uris list_view_ready.trace ++
            (["a", "b", "c"].take (ds'.length + 1)).map some) :=
  batch_starts_uris_in_order list_view_ready ["a", "b", "c"] [none, none, none]
    rfl rfl (by simp) rfl

/-- C7: a batch of `N >= 1` files that is not cancelled never fails an
assertion: after `k <= N` finish events the program has returned and the
queue holds the last `N - k` URIs. For `k < N` the queue is non-empty and the
GUI state has not been set; for `k = N` the queue is empty and the GUI state
has been set, once, to `GUI_STATE_IDLE`. -/
theorem batch_queue_invariant (st : State) (L : List String)
    (ds : List (Option String))
    (hview : st.view = gui_view_e.GUI_VIEW_FILE_LIST) (hq : st.uris = [])
    (hL : L ≠ []) (hds : ds.length ≤ L.length) :
    ∃ st', (hash_file_list_start (L.map some) st).bind (finishes ds) =
        Outcome.returned st' ∧
      st'.uris = (L.drop ds.length).map some ∧
      (ds.length < L.length →
        st'.uris ≠ [] ∧
        set_state_calls st'.trace = set_state_calls st.trace ∧
        st'.gui_state = st.gui_state) ∧
      (ds.length = L.length →
        st'.uris = [] ∧
        set_state_calls st'.trace =
          set_state_calls st.trace ++ [gui_state_e.GUI_STATE_IDLE] ∧
        st'.gui_state = gui_state_e.GUI_STATE_IDLE) := by
  rcases Nat.lt_or_eq_of_le hds with hlt | heq
  · obtain ⟨st', h0, _, h2, h3, _, h5⟩ := batch_upto st L ds hview hq hlt
    refine ⟨st', h0, h2, ?_, ?_⟩
    · intro _
      refine ⟨?_, h5, h3⟩
      rw [h2]
      intro hnil
      have := List.drop_eq_nil_iff.mp (List.map_eq_nil_iff.mp hnil)
      omega
    · intro h
      omega
  · obtain ⟨st', h0, _, h2, h3, _, h5⟩ := batch_complete st L ds hview hq hL heq
    refine ⟨st', h0, ?_, ?_, ?_⟩
    · rw [h2, heq]
      simp
    · intro h
      omega
    · intro _
      exact ⟨h2, h5, h3⟩

/-- Witness of C7 on the list `a, b, c` after two finish events. -/
theorem batch_queue_invariant_witness :
    ∃ st', (hash_file_list_start (["a", "b", "c"].map some) list_view_ready).bind
          (finishes [none, none]) = Outcome.returned st' ∧
      st'.uris = (["a", "b", "c"].drop [none, (none : Option String)].length).map some ∧
      ([none, (none : Option String)].length < ["a", "b", "c"].length →
        st'.uris ≠ [] ∧
        set_state_calls st'.trace = set_state_calls list_view_ready.trace ∧
        st'.gui_state = list_view_ready.gui_state) ∧
      ([none, (none : Option String)].length = ["a", "b", "c"].length →
        st'.uris = [] ∧
        set_state_calls st'.trace =
          set_state_calls list_view_ready.trace ++ [gui_state_e.GUI_STATE_IDLE] ∧
        st'.gui_state = gui_state_e.GUI_STATE_IDLE) :=
  batch_queue_invariant list_view_ready ["a", "b", "c"] [none, none]
    rfl rfl (by simp) (by decide)

@[simp] theorem recorded_digests_append (a b : List call_e) :
    recorded_digests (a ++ b) = recorded_digests a ++ recorded_digests b := by
  simp [recorded_digests, List.filterMap_append]

theorem expected_digests_cons (u : String) (L : List String)
    (cbs : List callback_e) :
    ∀ k, expected_digests (u :: L) (k + 1) cbs = expected_digests L k cbs := by
  induction cbs with
  | nil =>
      intro k
      rfl
  | cons cb cbs ih =>
      intro k
      cases cb with
      | digest id digest data => simp [expected_digests, ih k]
      | finish data => simp [expected_digests, ih (k + 1)]
      | stop data => simp [expected_digests, ih k]

theorem deliveries_upto (cbs : List callback_e) :
    ∀ (st : State) (u : String) (L : List String),
      st.view = gui_view_e.GUI_VIEW_FILE_LIST →
      st.uris = (u :: L).map some →
      uncancelled cbs = true →
      finish_count cbs ≤ L.length →
      ∃ st', deliveries cbs st = Outcome.returned st' ∧
        st'.view = gui_view_e.GUI_VIEW_FILE_LIST ∧
        st'.uris = ((u :: L).drop (finish_count cbs)).map some ∧
        started_uris st'.trace =
          started_uris st.trace ++ (L.take (finish_count cbs)).map some ∧
        recorded_digests st'.trace =
          recorded_digests st.trace ++ expected_digests (u :: L) 0 cbs := by
  induction cbs with
  | nil =>
      intro st u L hview huris _ _
      exact ⟨st, rfl, hview, by simpa [finish_count] using huris,
        by simp [finish_count], by simp [expected_digests]⟩
  | cons cb cbs ih =>
      intro st u L hview huris hun hlen
      cases cb with
      | stop data => simp [uncancelled] at hun
      | digest id digest data =>
          have hstep : deliver (callback_e.digest id digest data) st =
              Outcome.returned
                { st with trace := st.trace ++ [call_e.list_set_digest (some u) id digest] } := by
            have huris' : st.uris = some u :: L.map some := by simpa using huris
            simp [deliver, gtkhash_hash_file_digest_cb, hview, huris', State.call]
          obtain ⟨st', h0, h1, h2, h3, h4⟩ :=
            ih { st with trace := st.trace ++ [call_e.list_set_digest (some u) id digest] }
              u L hview huris (by simpa [uncancelled] using hun)
              (by simpa [finish_count] using hlen)
          refine ⟨st', ?_, h1, ?_, ?_, ?_⟩
          · simp only [deliveries, hstep, Outcome.bind]
            exact h0
          · simpa [finish_count] using h2
          · rw [h3]
            simp [started_uris, finish_count]
          · rw [h4]
            simp [recorded_digests, expected_digests]
      | finish data =>
          cases L with
          | nil => simp [finish_count] at hlen
          | cons v L =>
              have hstep := finish_cb_next st data u (some v) (L.map some) hview
                (by simpa using huris)
              obtain ⟨st', h0, h1, h2, h3, h4⟩ :=
                ih { st with
                     uris := some v :: L.map some,
                     trace := st.trace ++ [call_e.g_free (some u),
                       call_e.hash_file (some v) st.format st.hmac.hmac_key
                         st.hmac.key_size none] }
                  v L hview (by simp) (by simpa [uncancelled] using hun)
                  (by simpa [finish_count] using hlen)
              refine ⟨st', ?_, h1, ?_, ?_, ?_⟩
              · simp only [deliveries, deliver, hstep, Outcome.bind]
                exact h0
              · simpa [finish_count] using h2
              · rw [h3]
                simp [started_uris, finish_count]
              · rw [h4]
                simp [recorded_digests, expected_digests, expected_digests_cons]

/-- C9: in a batch on the list `L` that is not cancelled, after any run of
digest and finish events with `k < N` finish events among them, the program
has returned, the head of the queue is the `k`-th URI of `L`, and that URI is
the one most recently handed to the reader. Every digest event of the run has
been recorded by `list_set_digest`, in order, against the URI that was being
hashed when it arrived, none dropped and none moved to another file; a digest
delivered next is recorded against the `k`-th URI. -/
theorem digest_recorded_for_current_file (st : State) (L : List String)
    (cbs : List callback_e) (id : Nat) (digest : String)
    (data : Option String)
    (hview : st.view = gui_view_e.GUI_VIEW_FILE_LIST) (hq : st.uris = [])
    (hun : uncancelled cbs = true)
    (hk : finish_count cbs < L.length) :
    ∃ st', (hash_file_list_start (L.map some) st).bind (deliveries cbs) =
        Outcome.returned st' ∧
      st'.uris.head? = some (some L[finish_count cbs]) ∧
      (started_uris st'.trace).getLast? = some (some L[finish_count cbs]) ∧
      recorded_digests st'.trace =
        recorded_digests st.trace ++ expected_digests L 0 cbs ∧
      gtkhash_hash_file_digest_cb id digest data st' =
        Outcome.returned
          (st'.call (call_e.list_set_digest (some L[finish_count cbs]) id digest)) := by
  cases L with
  | nil => simp at hk
  | cons u L =>
      obtain ⟨st', h0, h1, h2, h3, h4⟩ :=
        deliveries_upto cbs
          { st with
            uris := (u :: L).map some,
            trace := st.trace ++ [call_e.hash_file (some u) st.format st.hmac.hmac_key
              st.hmac.key_size none] }
          u L hview rfl hun (by simpa [Nat.lt_succ_iff] using hk)
      have hcons : st'.uris = some (u :: L)[finish_count cbs] ::
          ((u :: L).drop (finish_count cbs + 1)).map some := by
        rw [h2, List.drop_eq_getElem_cons hk]
        rfl
      have hstarted : started_uris st'.trace =
          started_uris st.trace ++ ((u :: L).take (finish_count cbs + 1)).map some := by
        rw [h3]
        simp [started_uris]
      refine ⟨st', ?_, ?_, ?_, ?_, ?_⟩
      · rw [list_start_returns st u L hview hq]
        exact h0
      · rw [hcons]
        rfl
      · rw [hstarted, List.take_succ, List.getElem?_eq_getElem hk]
        simp only [Option.toList, List.map_append, List.map_cons, List.map_nil]
        rw [← List.append_assoc, List.getLast?_concat]
      · rw [h4]
        simp [recorded_digests]
      · simp [gtkhash_hash_file_digest_cb, h1, hcons]

/-- Witness of C9 on the list `a, b, c`: two digests arrive for `a`, then `a`
finishes, then two digests arrive for `b`; the four are recorded against
`a`, `a`, `b`, `b`, and a fifth would be recorded against `b`. -/
theorem digest_recorded_for_current_file_witness :
    ∃ st', (hash_file_list_start (["a", "b", "c"].map some) list_view_ready).bind
          (deliveries [callback_e.digest 0 "d0" none, callback_e.digest 1 "d1" none,
            callback_e.finish none,
            callback_e.digest 0 "e0" none, callback_e.digest 1 "e1" none]) =
        Outcome.returned st' ∧
      st'.uris.head? = some (some "b") ∧
      (started_uris st'.trace).getLast? = some (some "b") ∧
      recorded_digests st'.trace =
        [(some "a", 0, "d0"), (some "a", 1, "d1"), (some "b", 0, "e0"), (some "b", 1, "e1")] ∧
      gtkhash_hash_file_digest_cb 2 "e2" none st' =
        Outcome.returned (st'.call (call_e.list_set_digest (some "b") 2 "e2")) :=
  digest_recorded_for_current_file list_view_ready ["a", "b", "c"]
    [callback_e.digest 0 "d0" none, callback_e.digest 1 "d1" none,
      callback_e.finish none,
      callback_e.digest 0 "e0" none, callback_e.digest 1 "e1" none]
    2 "e2" none rfl rfl rfl (by decide)

end GtkHash
